import Mathlib

/-!
Shallow embedding of the Analog_Bridge audio bridge (Python sources under
`src/`) and proofs about its wire codecs, DSP pipeline, VOX controller,
jitter buffer and echo interlock.

Conventions of the embedding:
* a UDP datagram / byte string is a `List Nat` (each entry one byte);
* Python `struct` operations carry their bounds and range checks explicitly
  (`Option` / `Except` encode a raised `struct.error` or other exception);
* wall-clock times (`time.time()`) and float amplitudes are idealised as
  exact rationals `ℚ`; the claims proved below depend only on comparisons
  and exact dyadic values where this idealisation is lossless;
* caught exceptions are modelled by the `Except`/`Option` failure value and
  by the handler code that the Python `except:` block runs.
-/

/-- Little-endian value of a list of bytes (least significant byte first).
Mirrors `struct.unpack` of `<I`, `<H`, `<Q` applied to an exact-length slice. -/
def leDecode : List Nat → Nat
  | [] => 0
  | b :: rest => b % 256 + 256 * leDecode rest

/-- `struct.unpack` of an unsigned little-endian field of `n` bytes at
byte offset `off` of `data`: Python slices `data[off:off+n]` (never raising)
and `struct.unpack` raises `struct.error` (here `none`) when the slice is
shorter than `n` bytes. -/
def readLE (data : List Nat) (off n : Nat) : Option Nat :=
  if off + n ≤ data.length then some (leDecode ((data.drop off).take n)) else none

/-- Little-endian byte encoding of `v` on `n` bytes (used by the emitters;
callers check the value range separately, as `struct.pack` does). -/
def leEncode (v : Nat) : Nat → List Nat
  | 0 => []
  | n + 1 => v % 256 :: leEncode (v / 256) n

/-- Overwrite `buf` starting at offset `off` with the bytes `vals`
(semantics of writing into a Python `bytearray` slice; caller checks bounds). -/
def writeAt (buf : List Nat) (off : Nat) (vals : List Nat) : List Nat :=
  buf.take off ++ vals ++ buf.drop (off + vals.length)

/-- `struct.pack_into` of an unsigned little-endian `n`-byte field:
raises `struct.error` (`none`) when the buffer is too short for the write
or when the value does not fit the format. -/
def packIntoLE (buf : List Nat) (off n v : Nat) : Option (List Nat) :=
  if off + n ≤ buf.length ∧ v < 2 ^ (8 * n) then
    some (writeAt buf off (leEncode v n))
  else none

/-! ## TLV codec (`src/dmr_gateway.py`, `src/mmdvm_receiver.py`) -/

/-- `MMDVMReceiver._parse_tlv_frame`: reject datagrams shorter than 3 bytes,
read the type byte, the little-endian u16 length, require the value to be
complete, and return `(type, value)`. -/
def parseTlvFrame (data : List Nat) : Option (Nat × List Nat) :=
  match data with
  | t :: l0 :: l1 :: rest =>
    let length := l0 % 256 + 256 * (l1 % 256)
    if rest.length < length then none
    else some (t, rest.take length)
  | _ => none

/-- `DMRGateway._create_tlv_frame`: type byte `0x00`, `struct.pack` of the
u16 little-endian length (raises for lengths `≥ 2^16`, caught: returns the
empty frame), then the PCM value. -/
def createTlvFrame (pcm : List Nat) : List Nat :=
  if pcm.length < 65536 then
    0 :: pcm.length % 256 :: pcm.length / 256 :: pcm
  else []

/-- `DMRGateway._create_ptt_command`: type `0x05` (start) or `0x06` (stop),
u16 length zero, empty value. -/
def createPttCommand (pttOn : Bool) : List Nat :=
  [if pttOn then 5 else 6, 0, 0]

/-! ## USRP codec (`src/usrp_server.py`, `src/usrp_client.py`) -/

/-- Parsed USRP header fields, as the dictionary built by
`USRPServer._parse_usrp_packet`. -/
structure UsrpHeader where
  packetType : Nat
  sequence : Nat
  timestamp : Nat
  sampleRate : Nat
  channels : Nat
  sampleWidth : Nat
  reserved : Nat
  payloadLength : Nat
  deriving Repr, DecidableEq

/-- Outcome of `USRPServer._parse_usrp_packet`: a parsed header and payload,
a silent drop (`None` without touching `error_count`), or a caught
exception (`None` after `error_count += 1`). -/
inductive UsrpParse where
  | ok (header : UsrpHeader) (payload : List Nat)
  | drop
  | err
  deriving Repr, DecidableEq

/-- `USRPServer._parse_usrp_packet`, line by line: length check (< 32 bytes
drops silently), magic check, field unpacks at offsets 4, 8, 12, 20, 24, 26,
28 and — as written in the source — a four-byte unpack at offset 30, which
needs 34 bytes of datagram and reads two payload bytes into the declared
length; then the payload completeness check. -/
def parseUsrpPacket (data : List Nat) : UsrpParse :=
  if data.length < 32 then .drop
  else if data.take 4 ≠ [85, 83, 82, 80] then .drop
  else
    match readLE data 4 4, readLE data 8 4, readLE data 12 8, readLE data 20 4,
        readLE data 24 2, readLE data 26 2, readLE data 28 2, readLE data 30 4 with
    | some packetType, some sequence, some timestamp, some sampleRate,
      some channels, some sampleWidth, some reserved, some payloadLength =>
      if data.length < 32 + payloadLength then .drop
      else .ok ⟨packetType, sequence, timestamp, sampleRate, channels,
        sampleWidth, reserved, payloadLength⟩ ((data.drop 32).take payloadLength)
    | _, _, _, _, _, _, _, _ => .err

/-- Mutable counters and the audio queue of `USRPServer` (the queue is
modelled unbounded; a full queue only affects `packet_count`). -/
structure UsrpServerState where
  errorCount : Nat
  controlPacketCount : Nat
  packetCount : Nat
  sequenceCounter : Nat
  audioQueue : List (UsrpHeader × List Nat)
  deriving Repr, DecidableEq

/-- Fresh `USRPServer` statistics state. -/
def usrpServerInitState : UsrpServerState :=
  ⟨0, 0, 0, 0, []⟩

/-- `USRPServer._handle_packet`: parse, return on `None` (the `error_count`
increment of the caught-exception path lives in the parser and is applied
here), count control packets, and enqueue audio packets. -/
def usrpHandlePacket (s : UsrpServerState) (data : List Nat) : UsrpServerState :=
  match parseUsrpPacket data with
  | .drop => s
  | .err => { s with errorCount := s.errorCount + 1 }
  | .ok header payload =>
    if header.packetType = 1 then
      { s with controlPacketCount := s.controlPacketCount + 1 }
    else if header.packetType = 0 then
      { s with
        sequenceCounter := max s.sequenceCounter header.sequence,
        audioQueue := s.audioQueue ++ [(header, payload)],
        packetCount := s.packetCount + 1 }
    else s

/-- `USRPClient._create_usrp_packet`: a 32-byte `bytearray`, the magic slice
assignment, then `struct.pack_into` writes at offsets 4, 8, 12, 20, 24, 26,
28 and a four-byte write at offset 30 — which overruns the 32-byte buffer,
so `pack_into` raises `struct.error`; the `except` handler returns `b''`. -/
def createUsrpPacket (seq ts rate ch width : Nat) (pcm : List Nat) : List Nat :=
  let buf0 : List Nat := List.replicate 32 0
  let built : Option (List Nat) := do
    let b1 := writeAt buf0 0 [85, 83, 82, 80]
    let b2 ← packIntoLE b1 4 4 0
    let b3 ← packIntoLE b2 8 4 seq
    let b4 ← packIntoLE b3 12 8 ts
    let b5 ← packIntoLE b4 20 4 rate
    let b6 ← packIntoLE b5 24 2 ch
    let b7 ← packIntoLE b6 26 2 width
    let b8 ← packIntoLE b7 28 2 0
    let b9 ← packIntoLE b8 30 4 pcm.length
    pure (b9 ++ pcm)
  match built with
  | some p => p
  | none => []

/-- A well-formed 34-byte USRP audio datagram: magic, all-zero header fields
through offset 29, declared payload length 2 at offsets 30–33 (the four-byte
read the parser performs there), and a two-byte zero payload. -/
def c1Datagram : List Nat :=
  [85, 83, 82, 80] ++ List.replicate 26 0 ++ [2, 0] ++ [0, 0]

/-- C1: USRP wire round-trip. Claim: for datagrams with magic `USRP` and a
consistent declared payload length, re-emitting the parsed header and payload
reproduces the datagram bit-for-bit. The code cannot do this: the emitter
packs the four-byte payload length at offset 30 of a 32-byte buffer, raising
`struct.error`, and the handler returns the empty byte string, so
`emit (parse d)` is `b''` for every datagram — exhibited here on a concrete
34-byte datagram the parser accepts. -/
theorem C1_usrp_roundtrip_code_bug :
    parseUsrpPacket c1Datagram = .ok ⟨0, 0, 0, 0, 0, 0, 0, 2⟩ [0, 0] ∧
    createUsrpPacket 0 0 0 0 0 [0, 0] = [] ∧ c1Datagram ≠ [] := by
  refine ⟨by decide, by decide, by decide⟩

/-- C5: TLV round-trip. For every PCM value shorter than `2^16` bytes the
gateway's PCM frame parses back to `(0x00, value)`, and both PTT command
frames parse back to `(0x05, b'')` / `(0x06, b'')`. -/
theorem C5_tlv_roundtrip (v : List Nat) (h : v.length < 65536) :
    parseTlvFrame (createTlvFrame v) = some (0, v) ∧
    (∀ b : Bool, parseTlvFrame (createPttCommand b) =
      some (if b then 5 else 6, [])) := by
  constructor
  · have hfits : v.length % 256 % 256 + 256 * (v.length / 256 % 256) = v.length := by
      omega
    simp only [createTlvFrame, if_pos h, parseTlvFrame]
    rw [hfits]
    simp
  · intro b
    cases b <;> rfl

/-- C5 witness: the round-trip theorem on the concrete value `[7, 8]`. -/
theorem C5_tlv_roundtrip_witness :
    parseTlvFrame (createTlvFrame [7, 8]) = some (0, [7, 8]) :=
  (C5_tlv_roundtrip [7, 8] (by decide)).1

/-- C6 counterexample: the claim says a 31-byte датагram increments
`error_count`; the code's short-datagram branch returns `None` before any
statement that touches `error_count`, so the counter stays at zero. -/
theorem C6_usrp_truncation_counterexample :
    (usrpHandlePacket usrpServerInitState (List.replicate 31 0)).errorCount = 0 ∧
    ¬ (usrpHandlePacket usrpServerInitState (List.replicate 31 0)).errorCount =
      usrpServerInitState.errorCount + 1 := by
  refine ⟨by decide, by decide⟩

/-- C6 (amended): a datagram shorter than 32 bytes is dropped with no
`AudioFrame` produced and the server state — including `error_count` —
completely unchanged (`error_count` increments only on caught exceptions,
which the short-datagram branch never reaches). -/
theorem C6_usrp_truncation_amended (s : UsrpServerState) (data : List Nat)
    (h : data.length < 32) : usrpHandlePacket s data = s := by
  unfold usrpHandlePacket parseUsrpPacket
  rw [if_pos h]

/-- C6 witness: a concrete 31-byte datagram on the fresh server state. -/
theorem C6_usrp_truncation_amended_witness :
    usrpHandlePacket usrpServerInitState (List.replicate 31 0) =
      usrpServerInitState :=
  C6_usrp_truncation_amended usrpServerInitState (List.replicate 31 0) (by decide)

/-! ## Resampler (`src/audio_resampler.py`)

Float computations (`numpy` float32/float64) are idealised as exact `ℚ`
arithmetic; the claims settled below only evaluate these definitions at
dyadic-rate inputs where the idealisation is exact. -/

/-- `np.frombuffer(..., dtype=np.int16)` of one little-endian sample. -/
def int16OfBytes (lo hi : Nat) : Int :=
  let v := lo % 256 + 256 * (hi % 256)
  if v < 32768 then (v : Int) else (v : Int) - 65536

/-- `np.frombuffer(pcm, dtype=np.int16)`: raises `ValueError` (`none`) when
the byte length is not a multiple of two. -/
def decodeInt16 : List Nat → Option (List Int)
  | [] => some []
  | [_] => none
  | lo :: hi :: rest => (decodeInt16 rest).map fun a => int16OfBytes lo hi :: a

/-- `tobytes()` of one int16 sample, little-endian two's complement. -/
def bytesOfInt16 (s : Int) : List Nat :=
  let u := (s % 65536).toNat
  [u % 256, u / 256]

/-- `audio_array.tobytes()` for an int16 array. -/
def encodeInt16 (xs : List Int) : List Nat :=
  (xs.map bytesOfInt16).flatten

/-- Truncation toward zero, the semantics of `astype(np.int16)` on a float
value already inside the int16 range. -/
def ratTrunc (q : ℚ) : Int :=
  if 0 ≤ q then ⌊q⌋ else ⌈q⌉

/-- `np.clip(x, -32768, 32767)` followed by the int16 cast. -/
def clipToInt16 (q : ℚ) : Int :=
  ratTrunc (max (-32768) (min q 32767))

/-- The per-output-frame arithmetic mean of `_convert_to_mono`: chunk the
interleaved samples into frames of `channels` samples, average, clip, cast. -/
def monoMix (channels : Nat) (l : List Int) : List Int :=
  if _hk : channels = 0 then []
  else
    match l with
    | [] => []
    | x :: xs =>
      clipToInt16
          ((((x :: xs).take channels).foldl (fun acc s => acc + (s : ℚ)) 0) /
            (channels : ℚ)) ::
        monoMix channels ((x :: xs).drop channels)
termination_by l.length
decreasing_by simp [List.length_drop]; omega

/-- `AudioResampler._convert_to_mono`: pass-through for mono, then
`len // channels` (ZeroDivisionError for zero channels), the reshape that
raises unless `channels` divides the sample count, and the mean/clip/cast. -/
def convertToMono (audio : List Int) (channels : Nat) : Except String (List Int) :=
  if channels = 1 then .ok audio
  else if channels = 0 then .error "ZeroDivisionError"
  else if audio.length % channels ≠ 0 then .error "ValueError: cannot reshape"
  else .ok (monoMix channels audio)

/-- `np.clip(floor_indices, 0, len(audio_array) - 2)`: ordinary clamp when
the upper bound is nonnegative; numpy yields the upper bound everywhere when
it lies below the lower bound (arrays of length 0 or 1). -/
def clipIdx (k : Int) (len : Nat) : Int :=
  if (len : Int) - 2 < 0 then (len : Int) - 2
  else min (max k 0) ((len : Int) - 2)

/-- numpy integer-array indexing: negative indices wrap once from the end;
anything still out of bounds raises `IndexError`. -/
def npGet (a : List Int) (i : Int) : Except String Int :=
  if 0 ≤ i ∧ i < (a.length : Int) then .ok (a.getD i.toNat 0)
  else if 0 ≤ (a.length : Int) + i ∧ i < 0 then
    .ok (a.getD ((a.length : Int) + i).toNat 0)
  else .error "IndexError"

/-- One output sample of the fallback interpolation path of
`_linear_resample`: `x = i / ratio`, unclipped fractional part, clipped floor
index, two-point linear interpolation, clip and int16 cast. -/
def fallbackSample (a : List Int) (inputRate outputRate : Nat) (i : Nat) :
    Except String Int := do
  let x : ℚ := (i : ℚ) * (inputRate : ℚ) / (outputRate : ℚ)
  let k0 : Int := ⌊x⌋
  let f : ℚ := x - (k0 : ℚ)
  let k : Int := clipIdx k0 a.length
  let v0 ← npGet a k
  let v1 ← npGet a (k + 1)
  pure (clipToInt16 ((1 - f) * (v0 : ℚ) + f * (v1 : ℚ)))

/-- `AudioResampler._linear_resample`: identity at equal rates; the ratio
division (ZeroDivisionError at input rate 0); `output_length = int(len * ratio)`;
then — as the source is written — the pre-allocated-buffer branch taken for
every output of at most 4096 samples calls `np.arange(output_length, out=...)`,
a keyword `arange` does not accept, so it raises `TypeError`; only the
fallback branch for longer outputs produces samples. -/
def linearResample (audio : List Int) (inputRate outputRate : Nat) :
    Except String (List Int) :=
  if inputRate = outputRate then .ok audio
  else if inputRate = 0 then .error "ZeroDivisionError"
  else
    let outputLength := audio.length * outputRate / inputRate
    if outputLength ≤ 4096 then
      .error "TypeError: arange got an unexpected keyword argument out"
    else
      (List.range outputLength).mapM (fallbackSample audio inputRate outputRate)

/-- The `try:` body of `AudioResampler.resample` with target 8000 Hz mono:
decode int16, mixdown when the channel count differs from 1, rate-convert
when the sample rate differs from 8000, re-encode. -/
def resampleCore (pcm : List Nat) (inputSampleRate inputChannels : Nat) :
    Except String (List Nat) :=
  match decodeInt16 pcm with
  | none => .error "ValueError: buffer size must be a multiple of element size"
  | some audio =>
    match (if inputChannels ≠ 1 then convertToMono audio inputChannels else .ok audio) with
    | .error e => .error e
    | .ok audio1 =>
      match (if inputSampleRate ≠ 8000 then linearResample audio1 inputSampleRate 8000
          else .ok audio1) with
      | .error e => .error e
      | .ok audio2 => .ok (encodeInt16 audio2)

/-- `AudioResampler.resample`: any exception in the body is caught and the
original input bytes are returned unchanged (graceful degradation). -/
def resample (pcm : List Nat) (inputSampleRate inputChannels : Nat) : List Nat :=
  match resampleCore pcm inputSampleRate inputChannels with
  | .ok out => out
  | .error _ => pcm

/-- `decodeInt16` fails exactly as `np.frombuffer` does on odd byte counts. -/
theorem decodeInt16_odd : ∀ pcm : List Nat, pcm.length % 2 = 1 →
    decodeInt16 pcm = none
  | [], h => by simp at h
  | [_], _ => rfl
  | lo :: hi :: rest, h => by
    have hr : rest.length % 2 = 1 := by
      simp only [List.length_cons] at h
      omega
    simp [decodeInt16, decodeInt16_odd rest hr]

/-- Even-length byte strings always decode. -/
theorem decodeInt16_even : ∀ pcm : List Nat, pcm.length % 2 = 0 →
    ∃ a, decodeInt16 pcm = some a
  | [], _ => ⟨[], rfl⟩
  | [_], h => by simp at h
  | lo :: hi :: rest, h => by
    have hr : rest.length % 2 = 0 := by
      simp only [List.length_cons] at h
      omega
    obtain ⟨a, ha⟩ := decodeInt16_even rest hr
    exact ⟨int16OfBytes lo hi :: a, by simp [decodeInt16, ha]⟩

set_option maxRecDepth 40000 in
/-- C4: resampler output length. Claim: for mono int16 input of `n` samples
and `in_rate ≠ out_rate`, `resample` returns exactly
`floor(n · out_rate / in_rate)` samples. Counter-evidence on the spec's own
test vector (320 samples at 16 kHz, expected 160 samples = 320 bytes): the
pre-allocated-buffer branch — taken for every output length up to 4096 —
passes `out=` to `np.arange`, which raises `TypeError`; the handler returns
the original 640-byte input, so the output holds 320 samples, not 160. -/
theorem C4_resampler_code_bug :
    resample (List.replicate 640 0) 16000 1 = List.replicate 640 0 ∧
    (resample (List.replicate 640 0) 16000 1).length = 640 ∧
    ¬ (resample (List.replicate 640 0) 16000 1).length = 2 * (320 * 8000 / 16000) := by
  refine ⟨by decide, by decide, by decide⟩

/-- C10: resampler totality and graceful degradation. `resample` is total
(a Lean function), and whenever the translated body fails — including every
input whose byte length is odd, and any channel count of zero — the original
input bytes are returned unchanged. -/
theorem C10_resampler_graceful (pcm : List Nat) (inputSampleRate inputChannels : Nat) :
    (∀ e, resampleCore pcm inputSampleRate inputChannels = .error e →
      resample pcm inputSampleRate inputChannels = pcm) ∧
    (pcm.length % 2 = 1 → resample pcm inputSampleRate inputChannels = pcm) ∧
    (pcm.length % 2 = 0 → inputChannels = 0 →
      resample pcm inputSampleRate inputChannels = pcm) := by
  refine ⟨?_, ?_, ?_⟩
  · intro e h
    simp [resample, h]
  · intro hodd
    simp [resample, resampleCore, decodeInt16_odd pcm hodd]
  · intro heven hch
    obtain ⟨a, ha⟩ := decodeInt16_even pcm heven
    simp [resample, resampleCore, ha, hch, convertToMono]

/-- C10 witness: a three-byte (odd) input is returned unchanged. -/
theorem C10_resampler_graceful_witness :
    ([1, 2, 3] : List Nat).length % 2 = 1 ∧ resample [1, 2, 3] 16000 1 = [1, 2, 3] :=
  ⟨by decide, (C10_resampler_graceful [1, 2, 3] 16000 1).2.1 (by decide)⟩

/-! ## VOX controller (`src/vox_controller.py`)

Times are `time.time()` values in seconds, idealised as `ℚ`. The RMS
amplitude `_calculate_amplitude` computes from the PCM bytes (a numpy float
square root) is abstracted as a rational frame attribute: the controller
only ever compares it against the threshold. -/

/-- `VOXController` configuration (all durations in seconds, as the
constructor derives them from the millisecond config keys). -/
structure VOXConfig where
  threshold : ℚ
  hangtimeSeconds : ℚ
  hardTimeoutSeconds : ℚ
  frameTime : ℚ
  deriving Repr, DecidableEq

/-- Mutable state and statistics of `VOXController`. -/
structure VOXState where
  pttActive : Bool
  lastActivityTime : ℚ
  transmissionStartTime : ℚ
  pttActivations : Nat
  pttDeactivations : Nat
  hardTimeouts : Nat
  totalTransmissionTime : ℚ
  deriving Repr, DecidableEq

/-- Constructor-time VOX state. -/
def voxInitState : VOXState :=
  ⟨false, 0, 0, 0, 0, 0, 0⟩

/-- Default `vox` configuration: threshold 1000, hangtime 600 ms,
hard timeout 60 s, frame time 20 ms. -/
def voxDefaultConfig : VOXConfig :=
  ⟨1000, 3/5, 60, 1/50⟩

/-- `VOXController._check_hard_timeout`: only while transmitting, fires when
the transmission duration reaches the hard timeout, incrementing the
`hard_timeouts` counter as a side effect. -/
def checkHardTimeout (cfg : VOXConfig) (s : VOXState) (t : ℚ) : Bool × VOXState :=
  if !s.pttActive then (false, s)
  else if cfg.hardTimeoutSeconds ≤ t - s.transmissionStartTime then
    (true, { s with hardTimeouts := s.hardTimeouts + 1 })
  else (false, s)

/-- `VOXController._activate_ptt`: from idle only; records the transmission
start, fires the callback with `True` (collected as an event). -/
def activatePtt (s : VOXState) (t : ℚ) : VOXState × List (ℚ × Bool) :=
  if s.pttActive then (s, [])
  else
    ({ s with
        pttActive := true, transmissionStartTime := t, lastActivityTime := t,
        pttActivations := s.pttActivations + 1 }, [(t, true)])

/-- `VOXController._deactivate_ptt`: from transmitting only; accumulates the
transmission duration and fires the callback with `False`. -/
def deactivatePtt (s : VOXState) (t : ℚ) : VOXState × List (ℚ × Bool) :=
  if !s.pttActive then (s, [])
  else
    ({ s with
        pttActive := false,
        totalTransmissionTime := s.totalTransmissionTime + (t - s.transmissionStartTime),
        pttDeactivations := s.pttDeactivations + 1 }, [(t, false)])

/-- `VOXController.process_audio_frame` at wall-clock time `t` on a frame of
amplitude `amp`: empty-PCM early return, hard-timeout check first (that
branch returns the packet *without* a `ptt_active` annotation), then the
threshold/hangtime logic; the returned `Option Bool` is the `ptt_active`
annotation written into the packet, and the list collects PTT callbacks. -/
def voxProcessAudioFrame (cfg : VOXConfig) (s : VOXState) (t amp : ℚ)
    (pcmEmpty : Bool) : VOXState × Option Bool × List (ℚ × Bool) :=
  if pcmEmpty then (s, none, [])
  else
    let ht := checkHardTimeout cfg s t
    if ht.1 then
      let d := deactivatePtt ht.2 t
      (d.1, none, d.2)
    else
      let s1 := ht.2
      if cfg.threshold < amp then
        let a := activatePtt s1 t
        let s2 := { a.1 with lastActivityTime := t }
        (s2, some s2.pttActive, a.2)
      else
        if s1.pttActive ∧ cfg.hangtimeSeconds ≤ t - s1.lastActivityTime then
          let d := deactivatePtt s1 t
          (d.1, some d.1.pttActive, d.2)
        else (s1, some s1.pttActive, [])

/-- A run of the VOX controller over a stream of (time, amplitude) frames
with non-empty PCM, collecting all PTT callback events in order. -/
def voxRun (cfg : VOXConfig) : VOXState → List (ℚ × ℚ) → VOXState × List (ℚ × Bool)
  | s, [] => (s, [])
  | s, (t, amp) :: rest =>
    let r := voxProcessAudioFrame cfg s t amp false
    let rr := voxRun cfg r.1 rest
    (rr.1, r.2.2 ++ rr.2)

/-- Frame times start no earlier than `prev`, are non-decreasing, and
consecutive frames are at most `gap` apart. -/
def timesOkB (gap : ℚ) : ℚ → List (ℚ × ℚ) → Bool
  | _, [] => true
  | prev, (t, _) :: rest =>
    if prev ≤ t ∧ t ≤ prev + gap then timesOkB gap t rest else false

/-- Arrival time of the last frame of the stream (`t0` for an empty one). -/
def lastFrameTime (t0 : ℚ) : List (ℚ × ℚ) → ℚ
  | [] => t0
  | (t, _) :: rest => lastFrameTime t rest

/-- C2 counterexample: with the default configuration, a loud frame at t=0
activates PTT and the only later frame arrives at t=100000 s; the PTT-off
callback then fires at t=100000, far beyond
`t0 + hard_timeout + frame_period = 60.02 s` — the claimed bound fails for
non-decreasing times without a bound on inter-frame gaps. -/
theorem C2_vox_hard_timeout_counterexample :
    (voxRun voxDefaultConfig voxInitState [(0, 2000), (100000, 2000)]).2 =
      [(0, true), (100000, false)] ∧
    ¬ ((100000 : ℚ) ≤ 0 + 60 + 1/50) := by
  constructor
  · norm_num [voxRun, voxProcessAudioFrame, checkHardTimeout, activatePtt,
      deactivatePtt, voxInitState, voxDefaultConfig]
  · norm_num

/-- While transmitting with the transmission that started at `t0` not yet
timed out, a frame stream whose gaps are at most one frame period and which
lasts past `t0 + hard_timeout` must fire a PTT-off callback no later than
`t0 + hard_timeout + frame_period`. -/
theorem voxHardTimeoutAux (cfg : VOXConfig) (t0 : ℚ) :
    ∀ (fs : List (ℚ × ℚ)) (s : VOXState) (tp : ℚ),
    s.pttActive = true → s.transmissionStartTime = t0 →
    tp < t0 + cfg.hardTimeoutSeconds →
    timesOkB cfg.frameTime tp fs = true →
    t0 + cfg.hardTimeoutSeconds ≤ lastFrameTime tp fs →
    ∃ t1, (t1, false) ∈ (voxRun cfg s fs).2 ∧
      t1 ≤ t0 + cfg.hardTimeoutSeconds + cfg.frameTime
  | [], s, tp => by
    intro _ _ htp _ hlast
    exact absurd (lt_of_lt_of_le htp hlast) (lt_irrefl tp)
  | (t, amp) :: rest, s, tp => by
    intro hact hstart htp hok hlast
    simp only [timesOkB] at hok
    split at hok
    case isFalse => exact absurd hok (by simp)
    case isTrue hbound =>
      have hgap : 0 ≤ cfg.frameTime := by linarith [hbound.1, hbound.2]
      by_cases hht : cfg.hardTimeoutSeconds ≤ t - s.transmissionStartTime
      · -- the hard timeout fires on this frame
        have hstep : (voxProcessAudioFrame cfg s t amp false).2.2 = [(t, false)] := by
          simp [voxProcessAudioFrame, checkHardTimeout, deactivatePtt, hact, hht]
        refine ⟨t, ?_, ?_⟩
        · simp only [voxRun, hstep]
          exact List.mem_append_left _ (by simp)
        · rw [hstart] at hht
          linarith [hbound.2, htp]
      · -- transmission continues (or ends by hangtime, also within the bound)
        have hht' : t < t0 + cfg.hardTimeoutSeconds := by
          rw [hstart] at hht
          linarith [lt_of_not_le hht]
        by_cases hamp : cfg.threshold < amp
        · have hstep : voxProcessAudioFrame cfg s t amp false =
              ({ s with lastActivityTime := t }, some true, []) := by
            simp [voxProcessAudioFrame, checkHardTimeout, activatePtt, hact, hht, hamp]
          obtain ⟨t1, hmem, hb⟩ := voxHardTimeoutAux cfg t0 rest
            { s with lastActivityTime := t } t (by simp [hact]) (by simp [hstart])
            hht' hok hlast
          refine ⟨t1, ?_, hb⟩
          simp only [voxRun, hstep]
          exact List.mem_append_right _ hmem
        · by_cases hhang : cfg.hangtimeSeconds ≤ t - s.lastActivityTime
          · have hstep : (voxProcessAudioFrame cfg s t amp false).2.2 = [(t, false)] := by
              simp [voxProcessAudioFrame, checkHardTimeout, deactivatePtt, hact, hht,
                hamp, hhang]
            refine ⟨t, ?_, ?_⟩
            · simp only [voxRun, hstep]
              exact List.mem_append_left _ (by simp)
            · linarith
          · have hstep : voxProcessAudioFrame cfg s t amp false =
                (s, some true, []) := by
              simp [voxProcessAudioFrame, checkHardTimeout, deactivatePtt, hact, hht,
                hamp, hhang]
            obtain ⟨t1, hmem, hb⟩ := voxHardTimeoutAux cfg t0 rest s t hact hstart
              hht' hok hlast
            refine ⟨t1, ?_, hb⟩
            simp only [voxRun, hstep]
            exact List.mem_append_right _ hmem

/-- C2 (amended): for a frame stream with non-decreasing times *whose
consecutive frames are at most one frame period apart* and which extends to
`t0 + hard_timeout`, a frame activating PTT at `t0` is followed by a PTT-off
callback no later than `t0 + hard_timeout + frame_period`; and — as the claim
also states — any frame arriving while transmitting with
`t − transmission_start ≥ hard_timeout` deactivates PTT, fires the callback
with `False`, increments `hard_timeouts`, and is returned without a
`ptt_active` annotation (so the TX gate does not forward it). -/
theorem C2_vox_hard_timeout_amended (cfg : VOXConfig) (s0 : VOXState)
    (t0 a0 : ℚ) (rest : List (ℚ × ℚ))
    (hidle : s0.pttActive = false)
    (hHT : 0 < cfg.hardTimeoutSeconds)
    (hamp : cfg.threshold < a0)
    (hok : timesOkB cfg.frameTime t0 rest = true)
    (hlast : t0 + cfg.hardTimeoutSeconds ≤ lastFrameTime t0 rest) :
    ((t0, true) ∈ (voxRun cfg s0 ((t0, a0) :: rest)).2 ∧
      ∃ t1, (t1, false) ∈ (voxRun cfg s0 ((t0, a0) :: rest)).2 ∧
        t1 ≤ t0 + cfg.hardTimeoutSeconds + cfg.frameTime) ∧
    (∀ (s : VOXState) (t amp : ℚ), s.pttActive = true →
      cfg.hardTimeoutSeconds ≤ t - s.transmissionStartTime →
      (voxProcessAudioFrame cfg s t amp false).1.pttActive = false ∧
      (voxProcessAudioFrame cfg s t amp false).1.hardTimeouts = s.hardTimeouts + 1 ∧
      (voxProcessAudioFrame cfg s t amp false).2.1 = none ∧
      (voxProcessAudioFrame cfg s t amp false).2.2 = [(t, false)]) := by
  constructor
  · have hstep : voxProcessAudioFrame cfg s0 t0 a0 false =
        ({ s0 with
            pttActive := true
            transmissionStartTime := t0
            lastActivityTime := t0
            pttActivations := s0.pttActivations + 1 },
          some true, [(t0, true)]) := by
      simp [voxProcessAudioFrame, checkHardTimeout, activatePtt, hidle, hamp]
    constructor
    · simp only [voxRun, hstep]
      exact List.mem_append_left _ (by simp)
    · obtain ⟨t1, hmem, hb⟩ := voxHardTimeoutAux cfg t0 rest
        { s0 with
          pttActive := true
          transmissionStartTime := t0
          lastActivityTime := t0
          pttActivations := s0.pttActivations + 1 }
        t0 (by simp) (by simp) (by linarith) hok hlast
      refine ⟨t1, ?_, hb⟩
      simp only [voxRun, hstep]
      exact List.mem_append_right _ hmem
  · intro s t amp hact hht
    refine ⟨?_, ?_, ?_, ?_⟩ <;>
      simp [voxProcessAudioFrame, checkHardTimeout, deactivatePtt, hact, hht]

/-- Configuration for the C2 witness: hard timeout 10 ms, frame period 20 ms. -/
def c2WitnessConfig : VOXConfig :=
  ⟨1000, 3/5, 1/100, 1/50⟩

/-- C2 witness: a loud frame at t=0 activates; the next frame at t=0.01
(one 10 ms hard timeout later, within one frame period) forces the PTT-off
callback inside the bound `0 + 0.01 + 0.02`. -/
theorem C2_vox_hard_timeout_amended_witness :
    (0, true) ∈ (voxRun c2WitnessConfig voxInitState [((0 : ℚ), (2000 : ℚ)), (1/100, 2000)]).2 ∧
    ∃ t1, (t1, false) ∈ (voxRun c2WitnessConfig voxInitState [((0 : ℚ), (2000 : ℚ)), (1/100, 2000)]).2 ∧
      t1 ≤ 0 + (1/100 : ℚ) + 1/50 :=
  (C2_vox_hard_timeout_amended c2WitnessConfig voxInitState 0 2000 [(1/100, 2000)]
    rfl (by norm_num [c2WitnessConfig]) (by norm_num [c2WitnessConfig])
    (by norm_num [timesOkB, c2WitnessConfig])
    (by norm_num [lastFrameTime, c2WitnessConfig])).1

/-! ## Jitter buffer (`src/jitter_buffer.py`)

Frames are opaque (identified by a `Nat`); the input queue contents at one
`process()` call are a list in FIFO order; the downstream put (100 ms
timeout) is modelled as always succeeding — queue backpressure is a
concurrency effect outside this embedding. -/

/-- `jitter_buffer` configuration: frame period in seconds and target depth. -/
structure JBConfig where
  frameTimeSeconds : ℚ
  bufferSize : Nat
  deriving Repr, DecidableEq

/-- Mutable state and statistics of `JitterBuffer`. -/
structure JBState where
  buffer : List Nat
  lastOutputTime : ℚ
  framesBuffered : Nat
  framesOutput : Nat
  framesDropped : Nat
  underruns : Nat
  deriving Repr, DecidableEq

/-- Constructor-time jitter buffer state. -/
def jbInitState : JBState :=
  ⟨[], 0, 0, 0, 0, 0⟩

/-- The fill loop of `JitterBuffer.process`: drain the input queue into the
buffer while the buffer holds fewer than `buffer_size` frames. Returns the
new buffer, the remaining input and the number of frames taken. -/
def fillLoop (cap : Nat) (buf : List Nat) : List Nat → List Nat × List Nat × Nat
  | [] => (buf, [], 0)
  | f :: rest =>
    if buf.length < cap then
      let r := fillLoop cap (buf ++ [f]) rest
      (r.1, r.2.1, r.2.2 + 1)
    else (buf, f :: rest, 0)

/-- The overflow loop of `JitterBuffer.process`: pop the oldest frame while
the buffer holds more than `buffer_size * 2` frames, counting drops. -/
def dropLoop (cap : Nat) : List Nat → List Nat × Nat
  | [] => ([], 0)
  | f :: rest =>
    if cap < (f :: rest).length then
      let r := dropLoop cap rest
      (r.1, r.2 + 1)
    else (f :: rest, 0)

/-- The buffer contents after the fill and overflow stages of one
`process()` call (the state the emission clock then operates on). -/
def jbBufferStaged (cfg : JBConfig) (s : JBState) (input : List Nat) : List Nat :=
  (dropLoop (cfg.bufferSize * 2) (fillLoop cfg.bufferSize s.buffer input).1).1

/-- `JitterBuffer.process` at wall-clock time `now`: fill stage, overflow
stage, then the emission clock — first-frame immediate output setting
`last_output_time = now`; otherwise, when `now − last_output_time` reaches
the frame period, emit the oldest frame and advance `last_output_time` by
exactly one frame period, or count an underrun and reset
`last_output_time = now` when the buffer is empty. Returns the new state,
the emitted frames and the unconsumed input. -/
def jitterProcess (cfg : JBConfig) (s : JBState) (now : ℚ) (input : List Nat) :
    JBState × List Nat × List Nat :=
  let fl := fillLoop cfg.bufferSize s.buffer input
  let dl := dropLoop (cfg.bufferSize * 2) fl.1
  let s1 : JBState :=
    { s with
      buffer := dl.1
      framesBuffered := s.framesBuffered + fl.2.2
      framesDropped := s.framesDropped + dl.2 }
  if s1.lastOutputTime = 0 then
    match _h : s1.buffer with
    | [] => (s1, [], fl.2.1)
    | f :: rest =>
      ({ s1 with
          buffer := rest
          framesOutput := s1.framesOutput + 1
          lastOutputTime := now }, [f], fl.2.1)
  else
    if cfg.frameTimeSeconds ≤ now - s1.lastOutputTime then
      match _h : s1.buffer with
      | [] =>
        ({ s1 with
            underruns := s1.underruns + 1
            lastOutputTime := now }, [], fl.2.1)
      | f :: rest =>
        ({ s1 with
            buffer := rest
            framesOutput := s1.framesOutput + 1
            lastOutputTime := s1.lastOutputTime + cfg.frameTimeSeconds }, [f], fl.2.1)
    else (s1, [], fl.2.1)

/-- A sequence of `process()` calls, each with its wall-clock time and the
input-queue contents that arrived before it. -/
def jitterRun (cfg : JBConfig) : JBState → List (ℚ × List Nat) → JBState
  | s, [] => s
  | s, (now, input) :: calls => jitterRun cfg (jitterProcess cfg s now input).1 calls

/-- The fill loop never grows the buffer beyond the target depth. -/
theorem fillLoop_length (cap : Nat) :
    ∀ (input buf : List Nat), buf.length ≤ cap →
      (fillLoop cap buf input).1.length ≤ cap
  | [], buf => fun h => h
  | f :: rest, buf => fun h => by
    simp only [fillLoop]
    split
    case isTrue hlt =>
      exact fillLoop_length cap rest (buf ++ [f]) (by simp; omega)
    case isFalse hge => exact h

/-- The overflow loop is the identity on buffers within the hard cap. -/
theorem dropLoop_id (cap : Nat) (l : List Nat) (h : l.length ≤ cap) :
    dropLoop cap l = (l, 0) := by
  cases l with
  | nil => rfl
  | cons f rest =>
    simp only [dropLoop]
    rw [if_neg]
    simpa using h

/-- One `process()` call preserves the depth invariant and, under it, the
overflow branch is unreachable: `frames_dropped` never moves. -/
theorem jitterProcess_inv (cfg : JBConfig) (s : JBState) (now : ℚ)
    (input : List Nat) (h : s.buffer.length ≤ cfg.bufferSize) :
    (jitterProcess cfg s now input).1.buffer.length ≤ cfg.bufferSize ∧
    (jitterProcess cfg s now input).1.framesDropped = s.framesDropped := by
  have hfill : (fillLoop cfg.bufferSize s.buffer input).1.length ≤ cfg.bufferSize :=
    fillLoop_length cfg.bufferSize input s.buffer h
  have hdrop : dropLoop (cfg.bufferSize * 2) (fillLoop cfg.bufferSize s.buffer input).1 =
      ((fillLoop cfg.bufferSize s.buffer input).1, 0) :=
    dropLoop_id _ _ (by omega)
  simp only [jitterProcess, hdrop]
  split
  · split
    case _ hbuf => simp_all
    case _ f rest hbuf => simp_all; omega
  · split
    · split
      case _ hbuf => simp_all
      case _ f rest hbuf => simp_all; omega
    · simp_all

/-- The depth invariant and untouched drop counter hold along any run. -/
theorem jitterRun_inv (cfg : JBConfig) :
    ∀ (calls : List (ℚ × List Nat)) (s : JBState),
      s.buffer.length ≤ cfg.bufferSize →
      (jitterRun cfg s calls).buffer.length ≤ cfg.bufferSize ∧
      (jitterRun cfg s calls).framesDropped = s.framesDropped
  | [], s => fun h => ⟨h, rfl⟩
  | (now, input) :: calls, s => fun h => by
    have h1 := jitterProcess_inv cfg s now input h
    have h2 := jitterRun_inv cfg calls (jitterProcess cfg s now input).1 h1.1
    exact ⟨h2.1, by rw [jitterRun, h2.2, h1.2]⟩

/-- C9: implicit jitter-buffer depth invariant. Starting from the fresh
state, the internal buffer never exceeds `buffer_size` frames after any
sequence of `process()` calls, and consequently the `> 2 · buffer_size`
overflow branch is unreachable: `frames_dropped` stays zero forever. -/
theorem C9_jitter_depth_invariant (cfg : JBConfig) (calls : List (ℚ × List Nat)) :
    (jitterRun cfg jbInitState calls).buffer.length ≤ cfg.bufferSize ∧
    (jitterRun cfg jbInitState calls).framesDropped = 0 := by
  have h := jitterRun_inv cfg calls jbInitState (by simp [jbInitState])
  exact ⟨h.1, h.2⟩

/-- C8: jitter-buffer pacing. With `last_output_time ≠ 0` and
`now − last_output_time ≥ Δ`: a non-empty staged buffer emits exactly its
oldest frame and advances `last_output_time` by exactly `Δ` without touching
`underruns`; an empty staged buffer emits nothing, counts one underrun and
resets `last_output_time = now`; and — over all calls whatsoever —
`underruns` moves only in that empty-buffer emission situation, and then by
exactly one. -/
theorem C8_jitter_pacing (cfg : JBConfig) (s : JBState) (now : ℚ)
    (input : List Nat) (h0 : s.lastOutputTime ≠ 0)
    (hdue : cfg.frameTimeSeconds ≤ now - s.lastOutputTime) :
    (∀ f rest, jbBufferStaged cfg s input = f :: rest →
      (jitterProcess cfg s now input).2.1 = [f] ∧
      (jitterProcess cfg s now input).1.buffer = rest ∧
      (jitterProcess cfg s now input).1.lastOutputTime =
        s.lastOutputTime + cfg.frameTimeSeconds ∧
      (jitterProcess cfg s now input).1.underruns = s.underruns) ∧
    (jbBufferStaged cfg s input = [] →
      (jitterProcess cfg s now input).2.1 = [] ∧
      (jitterProcess cfg s now input).1.underruns = s.underruns + 1 ∧
      (jitterProcess cfg s now input).1.lastOutputTime = now) ∧
    (∀ (s' : JBState) (now' : ℚ) (input' : List Nat),
      (jitterProcess cfg s' now' input').1.underruns = s'.underruns ∨
      ((jitterProcess cfg s' now' input').1.underruns = s'.underruns + 1 ∧
        s'.lastOutputTime ≠ 0 ∧ cfg.frameTimeSeconds ≤ now' - s'.lastOutputTime ∧
        jbBufferStaged cfg s' input' = [])) := by
  refine ⟨?_, ?_, ?_⟩
  · intro f rest hbuf
    simp only [jitterProcess, jbBufferStaged] at hbuf ⊢
    rw [if_neg (by simpa using h0), if_pos (by simpa using hdue)]
    split
    case _ hb => simp_all
    case _ f' rest' hb =>
      rw [hbuf] at hb
      cases hb
      simp
  · intro hbuf
    simp only [jitterProcess, jbBufferStaged] at hbuf ⊢
    rw [if_neg (by simpa using h0), if_pos (by simpa using hdue)]
    split
    case _ hb => simp
    case _ f' rest' hb =>
      rw [hbuf] at hb
      cases hb
  · intro s' now' input'
    simp only [jitterProcess, jbBufferStaged]
    split
    · split <;> simp
    · split
      case _ hdue' =>
        split
        case _ hb =>
          refine Or.inr ⟨by simp, by simpa using ‹¬_›, by simpa using hdue', by simpa using hb⟩
        case _ f' rest' hb => simp
      case _ => simp

/-! ## Plugin chain (`src/audio_processor.py`, `_process_interception_pipe`)

A plugin is a function from PCM bytes to PCM bytes that may raise; raising
is modelled as returning `none`. -/

/-- The `for plugin in self.interception_plugins` loop: apply each plugin to
the current buffer; on an exception, `break` — the loop returns the buffer
produced by the plugins that already ran (not the chain input). No validity
check is performed on what a plugin returns. -/
def runPluginChain (plugins : List (List Nat → Option (List Nat)))
    (pcm : List Nat) : List Nat :=
  match plugins with
  | [] => pcm
  | p :: ps =>
    match p pcm with
    | none => pcm
    | some out => runPluginChain ps out

/-- `AudioProcessor._process_interception_pipe`: identity when the pipe is
disabled, otherwise the plugin loop. -/
def processInterceptionPipe (enabled : Bool)
    (plugins : List (List Nat → Option (List Nat))) (pcm : List Nat) : List Nat :=
  if enabled then runPluginChain plugins pcm else pcm

/-- The all-or-nothing left-to-right composition of a plugin chain: the
result when every plugin succeeds, `none` as soon as one raises. -/
def chainOk (plugins : List (List Nat → Option (List Nat)))
    (pcm : List Nat) : Option (List Nat) :=
  match plugins with
  | [] => some pcm
  | p :: ps =>
    match p pcm with
    | none => none
    | some out => chainOk ps out

/-- A plugin that doubles its buffer, then one that raises. -/
def c7DoublePlugin : List Nat → Option (List Nat) := fun d => some (d ++ d)

/-- A plugin that always raises. -/
def c7RaisePlugin : List Nat → Option (List Nat) := fun _ => none

/-- C7 counterexample: with a chain `[double, raise]` on input `[1]`, the
second plugin raises; the code forwards `[1, 1]` — the output of the first
plugin — not the unprocessed `[1]` the chain received, and no error counter
exists in this code path. -/
theorem C7_plugin_chain_counterexample :
    processInterceptionPipe true [c7DoublePlugin, c7RaisePlugin] [1] = [1, 1] ∧
    [1, 1] ≠ [1] :=
  ⟨rfl, by decide⟩

/-- C7 (amended): if every plugin succeeds, the chain output is the
left-to-right composition applied to the input; if some plugin raises,
processing halts at the *first* raising plugin and the buffer forwarded is
the output of the plugins that already ran — the partially processed buffer,
not the chain's original input (and the error is only logged, not counted;
returned buffers are never validated). -/
theorem C7_plugin_chain_amended
    (plugins : List (List Nat → Option (List Nat))) (pcm : List Nat) :
    (∀ out, chainOk plugins pcm = some out →
      processInterceptionPipe true plugins pcm = out) ∧
    (chainOk plugins pcm = none →
      ∃ ps1 p ps2 mid, plugins = ps1 ++ p :: ps2 ∧ chainOk ps1 pcm = some mid ∧
        p mid = none ∧ processInterceptionPipe true plugins pcm = mid) := by
  induction plugins generalizing pcm with
  | nil =>
    refine ⟨?_, ?_⟩
    · intro out h
      simpa [chainOk, processInterceptionPipe, runPluginChain] using h
    · intro h
      simp [chainOk] at h
  | cons p ps ih =>
    refine ⟨?_, ?_⟩
    · intro out h
      simp only [chainOk] at h
      simp only [processInterceptionPipe, runPluginChain]
      cases hp : p pcm with
      | none => rw [hp] at h; exact absurd h (by simp)
      | some mid =>
        rw [hp] at h
        have := (ih mid).1 out h
        simpa [processInterceptionPipe] using this
    · intro h
      simp only [chainOk] at h
      cases hp : p pcm with
      | none =>
        refine ⟨[], p, ps, pcm, by simp, by simp [chainOk], hp, ?_⟩
        simp [processInterceptionPipe, runPluginChain, hp]
      | some mid =>
        rw [hp] at h
        obtain ⟨ps1, q, ps2, m, hdec, hok1, hq, hrun⟩ := (ih mid).2 h
        refine ⟨p :: ps1, q, ps2, m, by simp [hdec], ?_, hq, ?_⟩
        · simp [chainOk, hp, hok1]
        · simp only [processInterceptionPipe, runPluginChain, hp, if_pos]
          simpa [processInterceptionPipe] using hrun

/-- C7 amended witness: the chain `[double, raise]` on `[2]` halts at the
raising plugin and forwards the doubled buffer. -/
theorem C7_plugin_chain_amended_witness :
    ∃ ps1 p ps2 mid, ([c7DoublePlugin, c7RaisePlugin] :
        List (List Nat → Option (List Nat))) = ps1 ++ p :: ps2 ∧
      chainOk ps1 [2] = some mid ∧ p mid = none ∧
      processInterceptionPipe true [c7DoublePlugin, c7RaisePlugin] [2] = mid :=
  (C7_plugin_chain_amended [c7DoublePlugin, c7RaisePlugin] [2]).2 rfl

/-! ## Echo interlock and TX gate (`src/echo_interlock.py`, `src/main.py`)

The TX processing loop of `BOSRadioBridge` consults the interlock, possibly
attenuates and flags the frame, runs the VOX controller, and enqueues to the
DMR gateway only frames annotated `ptt_active` and not `echo_muted`. The RMS
amplitude the VOX computes is abstracted as a function of the PCM samples. -/

/-- `EchoInterlock` configuration and mutable state. -/
structure EIState where
  enable : Bool
  rxTimeoutMs : ℚ
  txMuteGain : ℚ
  rxActive : Bool
  rxLastActivity : ℚ
  txMuted : Bool
  deriving Repr, DecidableEq

/-- `EchoInterlock.set_rx_active`: on `True`, record RX activity now; on
`False`, clear `rx_active` only once the timeout has elapsed. -/
def setRxActive (s : EIState) (active : Bool) (now : ℚ) : EIState :=
  if active then { s with rxActive := true, rxLastActivity := now }
  else if s.rxTimeoutMs < (now - s.rxLastActivity) * 1000 then
    { s with rxActive := false }
  else s

/-- `EchoInterlock.is_tx_muted`: `False` when disabled; otherwise clear
`rx_active` when the elapsed milliseconds strictly exceed `rx_timeout_ms`,
record and return the updated `rx_active`. -/
def isTxMuted (s : EIState) (now : ℚ) : Bool × EIState :=
  if !s.enable then (false, s)
  else
    let ra := if s.rxTimeoutMs < (now - s.rxLastActivity) * 1000 then false
      else s.rxActive
    (ra, { s with rxActive := ra, txMuted := ra })

/-- `EchoInterlock.get_tx_gain`: the original gain when disabled or not
muted, `tx_mute_gain * original_gain` when muted (re-querying
`is_tx_muted`, whose state effect is repeated here). -/
def getTxGain (s : EIState) (now : ℚ) (originalGain : ℚ) : ℚ × EIState :=
  if !s.enable then (originalGain, s)
  else
    let m := isTxMuted s now
    if m.1 then (s.txMuteGain * originalGain, m.2) else (originalGain, m.2)

/-- A TX frame as the dictionary flowing from the audio processor into the
TX loop: PCM samples, the transient `echo_muted` flag and the `ptt_active`
annotation (absent for frames fresh from the processor). -/
structure TxPacket where
  pcm : List Int
  echoMuted : Bool
  pttAnnotation : Option Bool
  deriving Repr, DecidableEq

/-- C-style int16 wraparound, the semantics of `astype(np.int16)` on the
truncated product `audio_array * mute_gain`. -/
def int16Wrap (n : Int) : Int :=
  let u := (n % 65536).toNat
  if u < 32768 then (u : Int) else (u : Int) - 65536

/-- `(audio_array * mute_gain).astype(np.int16)`: multiply each sample by
the gain, truncate toward zero, wrap to int16. -/
def attenuatePcm (gain : ℚ) (pcm : List Int) : List Int :=
  pcm.map fun s => int16Wrap (ratTrunc ((s : ℚ) * gain))

/-- Result of one iteration of `BOSRadioBridge._tx_processing_loop`. -/
structure TxStepResult where
  ei : EIState
  vox : VOXState
  packet : TxPacket
  forwarded : Option TxPacket
  events : List (ℚ × Bool)

/-- One iteration of `BOSRadioBridge._tx_processing_loop` on a dequeued
frame at wall-clock time `now`: query `is_tx_muted`; when muted and the PCM
is non-empty, attenuate by `get_tx_gain(1.0)` and set `echo_muted`; run the
VOX controller (which annotates `ptt_active` except in its hard-timeout
branch); enqueue to the gateway only if annotated `ptt_active` and not
`echo_muted`. `ampOf` abstracts `_calculate_amplitude`. -/
def txProcessingStep (ampOf : List Int → ℚ) (vcfg : VOXConfig)
    (ei : EIState) (vs : VOXState) (p : TxPacket) (now : ℚ) : TxStepResult :=
  let m := isTxMuted ei now
  let step1 :=
    if m.1 ∧ p.pcm ≠ [] then
      let g := getTxGain m.2 now 1
      ({ p with pcm := attenuatePcm g.1 p.pcm, echoMuted := true }, g.2)
    else (p, m.2)
  let p1 := step1.1
  let v := voxProcessAudioFrame vcfg vs now (ampOf p1.pcm) p1.pcm.isEmpty
  let p2 : TxPacket :=
    { p1 with
      pttAnnotation := match v.2.1 with | some b => some b | none => p1.pttAnnotation }
  let forwarded :=
    if p2.pttAnnotation.getD false ∧ p2.echoMuted = false then some p2 else none
  ⟨step1.2, v.1, p2, forwarded, v.2.2⟩

/-- C3: echo-interlock never-transmit. With the interlock enabled and
`mute_gain = 0`, a TX frame processed at any time strictly inside
`(T, T + rx_timeout_ms)` after an RX delivery at `T` (which left
`rx_active = true`, `rx_last_activity = T`) sees `is_tx_muted() = True`; a
non-empty frame is flagged `echo_muted`; the frame is never enqueued to the
DMR gateway queue (so no PCM TLV datagram is emitted for it); and the
interlock state still shows `rx_active = true` with `rx_last_activity = T`,
so every further frame in the window is blocked the same way. -/
theorem C3_echo_interlock_no_transmit (ampOf : List Int → ℚ) (vcfg : VOXConfig)
    (ei : EIState) (vs : VOXState) (p : TxPacket) (T now : ℚ)
    (hen : ei.enable = true) (_hgain : ei.txMuteGain = 0)
    (hrx : ei.rxActive = true) (hT : ei.rxLastActivity = T)
    (_hlt : T < now) (hwin : (now - T) * 1000 < ei.rxTimeoutMs)
    (_hfresh : p.echoMuted = false) (hann : p.pttAnnotation = none) :
    (isTxMuted ei now).1 = true ∧
    (p.pcm ≠ [] → (txProcessingStep ampOf vcfg ei vs p now).packet.echoMuted = true) ∧
    (txProcessingStep ampOf vcfg ei vs p now).forwarded = none ∧
    (txProcessingStep ampOf vcfg ei vs p now).ei.rxActive = true ∧
    (txProcessingStep ampOf vcfg ei vs p now).ei.rxLastActivity = T := by
  have hcond : ¬ (ei.rxTimeoutMs < (now - ei.rxLastActivity) * 1000) := by
    rw [hT]
    exact not_lt.mpr (le_of_lt hwin)
  have hmut : isTxMuted ei now = (true, { ei with rxActive := true, txMuted := true }) := by
    simp [isTxMuted, hen, hrx, hcond]
  by_cases hpcm : p.pcm = []
  · refine ⟨by rw [hmut], ?_, ?_, ?_, ?_⟩
    · intro hne
      exact absurd hpcm hne
    · simp [txProcessingStep, hmut, hpcm, voxProcessAudioFrame, hann]
    · simp [txProcessingStep, hmut, hpcm, voxProcessAudioFrame, hT]
    · simp [txProcessingStep, hmut, hpcm, voxProcessAudioFrame, hT]
  · have hcond2 : ¬ (({ ei with rxActive := true, txMuted := true } : EIState).rxTimeoutMs <
        (now - ({ ei with rxActive := true, txMuted := true } : EIState).rxLastActivity) * 1000) := by
      simpa using hcond
    have hgg : getTxGain { ei with rxActive := true, txMuted := true } now 1 =
        (ei.txMuteGain * 1, { ei with rxActive := true, txMuted := true }) := by
      simp [getTxGain, isTxMuted, hen, hcond2]
    refine ⟨by rw [hmut], ?_, ?_, ?_, ?_⟩
    · intro _
      simp [txProcessingStep, hmut, hpcm, hgg]
    · simp [txProcessingStep, hmut, hpcm, hgg]
    · simp [txProcessingStep, hmut, hpcm, hgg]
    · simp [txProcessingStep, hmut, hpcm, hgg]
      exact hT

/-- Concrete interlock state for the C3 witness: enabled, 200 ms timeout,
full mute, RX noted at t = 0. -/
def c3WitnessInterlock : EIState :=
  ⟨true, 200, 0, true, 0, false⟩

/-- C3 witness: a one-sample frame processed at t = 0.1 s, 100 ms after the
RX delivery at t = 0 and inside the 200 ms window, is muted, flagged and not
forwarded. -/
theorem C3_echo_interlock_no_transmit_witness :
    (isTxMuted c3WitnessInterlock (1/10)).1 = true ∧
    (txProcessingStep (fun _ => 0) voxDefaultConfig c3WitnessInterlock voxInitState
      ⟨[5], false, none⟩ (1/10)).packet.echoMuted = true ∧
    (txProcessingStep (fun _ => 0) voxDefaultConfig c3WitnessInterlock voxInitState
      ⟨[5], false, none⟩ (1/10)).forwarded = none :=
  have h := C3_echo_interlock_no_transmit (fun _ => 0) voxDefaultConfig
    c3WitnessInterlock voxInitState ⟨[5], false, none⟩ 0 (1/10)
    rfl rfl rfl rfl (by norm_num) (by norm_num [c3WitnessInterlock]) rfl rfl
  ⟨h.1, h.2.1 (by simp), h.2.2.1⟩

/-- Jitter-buffer state for the C8 witness: one buffered frame, last output
at t = 1 s. -/
def c8WitnessState : JBState :=
  ⟨[7], 1, 0, 0, 0, 0⟩

/-- Jitter-buffer configuration for the C8 witness: 20 ms frames, depth 3. -/
def c8WitnessConfig : JBConfig :=
  ⟨1/50, 3⟩

/-- C8 witness: a due call (now = 2 s, one second late) on a non-empty
buffer emits the oldest frame, advances the phase-locked clock by exactly
20 ms, and leaves `underruns` untouched. -/
theorem C8_jitter_pacing_witness :
    (jitterProcess c8WitnessConfig c8WitnessState 2 []).2.1 = [7] ∧
    (jitterProcess c8WitnessConfig c8WitnessState 2 []).1.lastOutputTime =
      c8WitnessState.lastOutputTime + c8WitnessConfig.frameTimeSeconds ∧
    (jitterProcess c8WitnessConfig c8WitnessState 2 []).1.underruns =
      c8WitnessState.underruns :=
  have h := (C8_jitter_pacing c8WitnessConfig c8WitnessState 2 []
    (by norm_num [c8WitnessState]) (by norm_num [c8WitnessState, c8WitnessConfig])).1
    7 [] rfl
  ⟨h.1, h.2.2.1, h.2.2.2⟩
